import Mathlib

/-!
Verification development for the CodeCraft match scheduler
(src/scripts/games.py and src/scripts/runner.py).

The Python code is shallowly embedded: pure computations become Lean
functions, the thread loops become explicit recursive step functions over
oracles describing the nondeterministic environment (queue contents,
process exit codes, stop-flag observations), and wall-clock time is
discretised in ticks of 0.1 s (the poll granularity of the source).
Filesystem-existence asserts (os.path.exists / os.path.isfile) are outside
the embedding.
-/

/-- Python strings are embedded as lists of characters, so that splitting
(str.split) is List.splitOn and evaluates inside the kernel. -/
abbrev PyStr := List Char

/-- Player record, from the namedtuple in games.py. -/
structure Player where
  type : PyStr
  bin_path : Option PyStr
  start_port : Nat
  name : Option PyStr
deriving DecidableEq, Repr

/-- Runner record, from the namedtuple in games.py. -/
structure GameRunner where
  bin_path : String
  game_type : String
  seed : Nat
  output_path : String
  config_path : Option String
  visual : Bool
deriving DecidableEq, Repr

/-- Task record, from the namedtuple in games.py. -/
structure GameTask where
  runner : GameRunner
  players : List Player
deriving DecidableEq, Repr

/-- One entry of parse_players in games.py: the n-th space-separated item
is split on colons; item structure Tcp[:bin_path][:name] or type[:name];
the player gets start_port = base + n.  The assert on the player type
yields none (an AssertionError); the os.path existence asserts on the
binary path are filesystem effects outside the embedding. -/
def parseOnePlayer (v : PyStr) (port : Nat) : Option Player :=
  let params := v.splitOn ':'
  let player_type : Option PyStr :=
    if 1 ≤ params.length then params.get? 0 else none
  let player_bin_path : Option PyStr :=
    if player_type = some "Tcp".toList ∧ 2 ≤ params.length then params.get? 1 else none
  let player_name_index : Nat := if player_type = some "Tcp".toList then 2 else 1
  let player_name : Option PyStr :=
    if player_name_index + 1 ≤ params.length then params.get? player_name_index else none
  match player_type with
  | none => none
  | some t =>
    if t = "Tcp".toList ∨ t = "QuickStart".toList ∨ t = "Empty".toList then
      some ⟨t, player_bin_path, port, player_name⟩
    else
      none

/-- The enumerate loop of parse_players: item n gets port start_port + n. -/
def parsePlayersAux (items : List PyStr) (port : Nat) : Option (List Player) :=
  match items with
  | [] => some []
  | v :: rest => do
    let p ← parseOnePlayer v port
    let ps ← parsePlayersAux rest (port + 1)
    pure (p :: ps)

/-- parse_players from games.py: split the text on spaces and build one
player per item, with consecutive start ports from start_port. -/
def parse_players (text : PyStr) (start_port : Nat) : Option (List Player) :=
  parsePlayersAux (text.splitOn ' ') start_port

/-- The duplication loop in games.run: while len(players) < sides,
players += players.  The Lean model adds the guard 1 ≤ players.length for
termination; on an empty list the Python loop never terminates, and
parse_players always yields at least one player when it succeeds. -/
def duplicatePlayers (sides : Nat) (players : List Player) : List Player :=
  if _h : players.length < sides ∧ 1 ≤ players.length then
    duplicatePlayers sides (players ++ players)
  else
    players
termination_by sides - players.length
decreasing_by
  simp only [List.length_append]
  omega

/-- A possible result of random.sample(population, k): a list of k entries
drawn without replacement by position, in arbitrary order, i.e. a
permutation of a sublist of the population. -/
def isSample (sample population : List Player) (k : Nat) : Prop :=
  sample.length = k ∧ List.Subperm sample population

/-- Port shift of worker n at pool construction (Scheduler.__init__,
port_shift = n * ports_per_worker). -/
def spawnPortShift (n ports_per_worker : Nat) : Nat :=
  n * ports_per_worker

/-- Port shift given to the replacement worker in slot n in
Scheduler.put_task (port_shift = n * self.__ports_per_worker). -/
def respawnPortShift (n ports_per_worker : Nat) : Nat :=
  n * ports_per_worker

/-- Absolute ports a task uses in handle_task:
player.start_port + port_shift for each player. -/
def taskPorts (players : List Player) (port_shift : Nat) : List Nat :=
  players.map (fun v => v.start_port + port_shift)

lemma parseOnePlayer_start_port {v : PyStr} {port : Nat} {p : Player}
    (h : parseOnePlayer v port = some p) : p.start_port = port := by
  unfold parseOnePlayer at h
  dsimp only at h
  split at h
  · exact absurd h (by simp)
  · split at h
    · simp only [Option.some.injEq] at h
      subst h
      rfl
    · exact absurd h (by simp)

lemma parsePlayersAux_start_port {items : List PyStr} {port : Nat}
    {ps : List Player} (h : parsePlayersAux items port = some ps) :
    ps.length = items.length ∧
      ∀ p ∈ ps, port ≤ p.start_port ∧ p.start_port < port + ps.length := by
  induction items generalizing port ps with
  | nil =>
    simp only [parsePlayersAux, Option.some.injEq] at h
    subst h
    simp
  | cons v rest ih =>
    simp only [parsePlayersAux, Option.bind_eq_bind, Option.bind_eq_some] at h
    obtain ⟨p, hp, rest2, hrest, heq⟩ := h
    simp only [Option.pure_def, Option.some.injEq] at heq
    subst heq
    obtain ⟨hlen, hmem⟩ := ih hrest
    have hport := parseOnePlayer_start_port hp
    refine ⟨by simp [hlen], ?_⟩
    intro q hq
    rcases List.mem_cons.mp hq with hq | hq
    · subst hq
      simp [hport]
    · have := hmem q hq
      simp only [List.length_cons]
      omega

lemma parse_players_start_port {text : PyStr} {base : Nat} {ps : List Player}
    (h : parse_players text base = some ps) :
    ∀ p ∈ ps, base ≤ p.start_port ∧ p.start_port < base + ps.length := by
  exact (parsePlayersAux_start_port h).2

lemma mem_duplicatePlayers {sides : Nat} {ps : List Player} {p : Player}
    (h : p ∈ duplicatePlayers sides ps) : p ∈ ps := by
  induction ps using duplicatePlayers.induct sides with
  | case1 ps hlt ih =>
    rw [duplicatePlayers] at h
    simp only [hlt, dif_pos] at h
    rcases List.mem_append.mp (ih h) with h | h <;> exact h
  | case2 ps hlt =>
    rw [duplicatePlayers] at h
    simp only [hlt, dif_neg] at h
    exact h

lemma duplicatePlayers_of_le {sides : Nat} {ps : List Player}
    (h : sides ≤ ps.length) : duplicatePlayers sides ps = ps := by
  rw [duplicatePlayers]
  have hc : ¬(ps.length < sides ∧ 1 ≤ ps.length) := by omega
  simp [hc]

lemma parsePlayersAux_ports_nodup {items : List PyStr} {port : Nat}
    {ps : List Player} (h : parsePlayersAux items port = some ps) :
    (ps.map (fun p => p.start_port)).Nodup := by
  induction items generalizing port ps with
  | nil =>
    simp only [parsePlayersAux, Option.some.injEq] at h
    subst h
    simp
  | cons v rest ih =>
    simp only [parsePlayersAux, Option.bind_eq_bind, Option.bind_eq_some] at h
    obtain ⟨p, hp, rest2, hrest, heq⟩ := h
    simp only [Option.pure_def, Option.some.injEq] at heq
    subst heq
    have hport := parseOnePlayer_start_port hp
    have hbounds := (parsePlayersAux_start_port hrest).2
    simp only [List.map_cons, List.nodup_cons]
    refine ⟨?_, ih hrest⟩
    intro hmem
    simp only [List.mem_map] at hmem
    obtain ⟨q, hq, he⟩ := hmem
    have := hbounds q hq
    omega

lemma shifted_ports_ne {base P n m a b : Nat} (hnm : n ≠ m)
    (ha1 : base ≤ a) (ha2 : a < base + P) (hb1 : base ≤ b) (hb2 : b < base + P) :
    a + n * P ≠ b + m * P := by
  intro heq
  rcases Nat.lt_trichotomy n m with hlt | hEq | hlt
  · have h1 : (n + 1) * P ≤ m * P := Nat.mul_le_mul_right P hlt
    have h2 : n * P + P ≤ m * P := by
      calc n * P + P = (n + 1) * P := by ring
      _ ≤ m * P := h1
    omega
  · exact hnm hEq
  · have h1 : (m + 1) * P ≤ n * P := Nat.mul_le_mul_right P hlt
    have h2 : m * P + P ≤ n * P := by
      calc m * P + P = (m + 1) * P := by ring
      _ ≤ n * P := h1
    omega

/-- C1: for a scheduler built by games.run (ports_per_worker = number of
parsed players), worker slot n uses port shift n * ports_per_worker both
at pool construction and at respawn, and the absolute ports
(start_port + shift) of any two tasks executing on distinct worker slots
are disjoint, the tasks' players being sampled from the (possibly
duplicated) parsed player list. -/
theorem C1_worker_ports_disjoint (text : PyStr) (base sides n m : Nat)
    (ps s1 s2 : List Player)
    (hparse : parse_players text base = some ps)
    (hnm : n ≠ m)
    (hs1 : isSample s1 (duplicatePlayers sides ps) sides)
    (hs2 : isSample s2 (duplicatePlayers sides ps) sides) :
    spawnPortShift n ps.length = respawnPortShift n ps.length ∧
    List.Disjoint (taskPorts s1 (spawnPortShift n ps.length))
      (taskPorts s2 (spawnPortShift m ps.length)) := by
  refine ⟨rfl, ?_⟩
  intro x hx1 hx2
  simp only [taskPorts, List.mem_map, spawnPortShift] at hx1 hx2
  obtain ⟨p1, hp1, he1⟩ := hx1
  obtain ⟨p2, hp2, he2⟩ := hx2
  have hm1 : p1 ∈ ps := mem_duplicatePlayers (hs1.2.subset hp1)
  have hm2 : p2 ∈ ps := mem_duplicatePlayers (hs2.2.subset hp2)
  have hb1 := parse_players_start_port hparse p1 hm1
  have hb2 := parse_players_start_port hparse p2 hm2
  exact shifted_ports_ne hnm hb1.1 hb1.2 hb2.1 hb2.2 (he1.trans he2.symm)

/-- Concrete parsed player list for the witnesses: two Empty players on
ports 40010 and 40011 (players string "Empty Empty", start_port 40010). -/
def cexPlayers : List Player :=
  [⟨"Empty".toList, none, 40010, none⟩, ⟨"Empty".toList, none, 40011, none⟩]

/-- Witness for C1 at a concrete input: 2 workers, the parsed players of
"Empty Empty" at base port 40010, sides 2, both workers running a task on
the full player list. -/
theorem C1_worker_ports_disjoint_witness :
    spawnPortShift 0 cexPlayers.length = respawnPortShift 0 cexPlayers.length ∧
    List.Disjoint (taskPorts cexPlayers (spawnPortShift 0 cexPlayers.length))
      (taskPorts cexPlayers (spawnPortShift 1 cexPlayers.length)) := by
  have hdup : duplicatePlayers 2 cexPlayers = cexPlayers :=
    duplicatePlayers_of_le (by norm_num [cexPlayers])
  exact C1_worker_ports_disjoint "Empty Empty".toList 40010 2 0 1
    cexPlayers cexPlayers cexPlayers (by decide) (by decide)
    ⟨by decide, by rw [hdup]⟩ ⟨by decide, by rw [hdup]⟩

/-- C5 counterexample: with two parsed players (string "Empty Empty",
base port 40010) and sides = 4, games.run duplicates the player list and
random.sample must then pick both copies of each player, so the task's
absolute ports contain 40010 and 40011 twice: they are not pairwise
distinct. -/
theorem C5_counterexample :
    parse_players "Empty Empty".toList 40010 = some cexPlayers ∧
    isSample (duplicatePlayers 4 cexPlayers) (duplicatePlayers 4 cexPlayers) 4 ∧
    ¬ (taskPorts (duplicatePlayers 4 cexPlayers)
        (spawnPortShift 0 cexPlayers.length)).Nodup := by
  have h1 : duplicatePlayers 4 cexPlayers = duplicatePlayers 4 (cexPlayers ++ cexPlayers) := by
    rw [duplicatePlayers]
    norm_num [cexPlayers]
  have h2 : duplicatePlayers 4 (cexPlayers ++ cexPlayers) = cexPlayers ++ cexPlayers :=
    duplicatePlayers_of_le (by norm_num [cexPlayers])
  have hdup : duplicatePlayers 4 cexPlayers = cexPlayers ++ cexPlayers := h1.trans h2
  refine ⟨by decide, ⟨by rw [hdup]; decide, List.Subperm.refl _⟩, ?_⟩
  rw [hdup]
  decide

/-- C5 (amended): when the parsed player list already has at least sides
players (so the duplication loop is a no-op and the sample draws distinct
parsed players), the absolute ports of every sampled task are pairwise
distinct; with duplication the ports can repeat. -/
theorem C5_task_ports_nodup (text : PyStr) (base sides shift : Nat)
    (ps sample : List Player)
    (hparse : parse_players text base = some ps)
    (hsides : sides ≤ ps.length)
    (hs : isSample sample (duplicatePlayers sides ps) sides) :
    (taskPorts sample shift).Nodup := by
  rw [duplicatePlayers_of_le hsides] at hs
  have hnd : (ps.map (fun p => p.start_port)).Nodup := parsePlayersAux_ports_nodup hparse
  obtain ⟨l, hperm, hsub⟩ := hs.2
  have hl : (l.map (fun p => p.start_port)).Nodup :=
    hnd.sublist (hsub.map (fun p => p.start_port))
  have hsl : (sample.map (fun p => p.start_port)).Nodup :=
    ((hperm.map (fun p => p.start_port)).nodup_iff).mp hl
  have heq : taskPorts sample shift
      = (sample.map (fun p => p.start_port)).map (fun x => x + shift) := by
    simp [taskPorts, List.map_map, Function.comp]
  rw [heq]
  exact hsl.map (fun a b hab => by omega)

/-- Witness for the amended C5: players "Empty Empty" at base 40010,
sides 2, the sample being the whole parsed list, shift 0. -/
theorem C5_task_ports_nodup_witness :
    (taskPorts cexPlayers 0).Nodup := by
  have hdup : duplicatePlayers 2 cexPlayers = cexPlayers :=
    duplicatePlayers_of_le (by norm_num [cexPlayers])
  exact C5_task_ports_nodup "Empty Empty".toList 40010 2 0 cexPlayers cexPlayers
    (by decide) (by norm_num [cexPlayers]) ⟨by decide, by rw [hdup]⟩

/-- Events of the tail of handle_task (games.py, after the engine wait):
record the result file, possibly set the task-level stop flag, possibly
set the player-supervisor stop flags, then join the player threads. -/
inductive TaskEvent where
  | recordResult
  | setTaskStop
  | setPlayerStop (i : Nat)
  | joinPlayer (i : Nat)
deriving DecidableEq, Repr

/-- The engine-failure test of handle_task:
returncode is not None and returncode != 0. -/
def engineFailed (returncode : Option Int) : Bool :=
  match returncode with
  | some c => decide (c ≠ 0)
  | none => false

/-- Event trace of the tail of handle_task for a task with k player
supervisors: write task.json; if the recorded exit code is non-zero, set
the task stop flag; if the task stop flag is set (just now or already),
set every player supervisor's stop flag; finally join every
player-supervisor thread.  taskStopAlready is the task stop flag's value
before this code runs. -/
def handleTaskFinishEvents (returncode : Option Int) (taskStopAlready : Bool)
    (k : Nat) : List TaskEvent :=
  [TaskEvent.recordResult]
    ++ (if engineFailed returncode then [TaskEvent.setTaskStop] else [])
    ++ (if engineFailed returncode || taskStopAlready then
          (List.range k).map TaskEvent.setPlayerStop
        else [])
    ++ (List.range k).map TaskEvent.joinPlayer

/-- C2: when the recorded engine exit code is non-zero, handle_task sets
the task-level cancellation flag and every player supervisor's stop flag,
and joins every player-supervisor thread, with every flag-set occurring
before every join, all before the task completes (the trace ends with the
joins). -/
theorem C2_engine_failure_cascades (c : Int) (hc : c ≠ 0)
    (taskStopAlready : Bool) (k : Nat) :
    handleTaskFinishEvents (some c) taskStopAlready k
      = [TaskEvent.recordResult] ++ [TaskEvent.setTaskStop]
        ++ (List.range k).map TaskEvent.setPlayerStop
        ++ (List.range k).map TaskEvent.joinPlayer := by
  simp [handleTaskFinishEvents, engineFailed, hc]

/-- Witness for C2: engine exit code 7, task stop flag initially clear,
2 player supervisors. -/
theorem C2_engine_failure_cascades_witness :
    handleTaskFinishEvents (some 7) false 2
      = [TaskEvent.recordResult] ++ [TaskEvent.setTaskStop]
        ++ (List.range 2).map TaskEvent.setPlayerStop
        ++ (List.range 2).map TaskEvent.joinPlayer :=
  C2_engine_failure_cascades 7 (by decide) false 2

/-- A JSON value, as far as the task.json artifact needs. -/
inductive JsonVal where
  | null
  | num (q : ℚ)
  | int (n : Int)
deriving DecidableEq

/-- JSON encoding of Popen.returncode: the integer exit code, or null when
the process has not been seen to exit. -/
def returncodeJson (returncode : Option Int) : JsonVal :=
  match returncode with
  | some c => JsonVal.int c
  | none => JsonVal.null

/-- The record handle_task writes to task.json (games.py:
dict(duration=duration, code=runner_process.returncode), serialized by
helpers.write_json with keys in insertion order). -/
def taskJsonRecord (duration : ℚ) (returncode : Option Int) :
    List (String × JsonVal) :=
  [("duration", JsonVal.num duration), ("code", returncodeJson returncode)]

/-- C8 counterexample: at a concrete input the task.json record's keys
are duration and code; there is no exitCode key. -/
theorem C8_counterexample :
    (taskJsonRecord 1 (some 7)).map Prod.fst = ["duration", "code"] ∧
    ¬ "exitCode" ∈ (taskJsonRecord 1 (some 7)).map Prod.fst := by
  constructor
  · rfl
  · simp [taskJsonRecord]

/-- C8 (amended): for every task that reaches the point of recording the
engine result, the task.json record has exactly the fields duration
(float seconds) and code, where code is the engine process's exit code
and null exactly when the engine had not exited. -/
theorem C8_task_json_fields (d : ℚ) (r : Option Int) :
    (taskJsonRecord d r).map Prod.fst = ["duration", "code"] ∧
    (taskJsonRecord d r).lookup "duration" = some (JsonVal.num d) ∧
    (taskJsonRecord d r).lookup "code" = some (returncodeJson r) ∧
    (returncodeJson r = JsonVal.null ↔ r = none) := by
  refine ⟨rfl, ?_, ?_, ?_⟩
  · simp [taskJsonRecord, List.lookup]
  · simp [taskJsonRecord, List.lookup]
  · cases r <;> simp [returncodeJson]

/-- Outcome of one launch attempt in run_player: the process ran and
wait_process returned (completed?) with the recorded return code, or an
exception escaped the launch (subprocess.TimeoutExpired or any other). -/
inductive LaunchOutcome where
  | ran (completed : Bool) (returncode : Int)
  | timeoutExpired
  | otherError
deriving DecidableEq, Repr

/-- Why the run_player retry loop ended. -/
inductive ExitReason where
  | success
  | abort
  | waitIncomplete
  | failsExhausted
  | stopped
  | excTimeout
  | excOther
deriving DecidableEq, Repr

/-- Observable result of run_player: how many launch attempts were made,
the backoff sleeps performed (in seconds), why the loop ended, and
whether an exception propagated out of run_player. -/
structure RunPlayerResult where
  launches : Nat
  sleeps : List ℚ
  reason : ExitReason
  raised : Bool
deriving DecidableEq, Repr

/-- The retry loop of run_player (games.py): while fails < 3 and the stop
flag is clear, launch the binary; if wait_process did not complete, stop;
exit code 0 returns; exit code -2 stops; any other code counts a failure
and sleeps min(1.0, fails * 0.1).  Exceptions during an attempt stop the
loop (they are caught inside the loop body).  outcome k and stopAt k are
the environment of the k-th iteration (k launches already made). -/
def runPlayerLoop (outcome : Nat → LaunchOutcome) (stopAt : Nat → Bool)
    (fails k : Nat) (sleeps : List ℚ) : RunPlayerResult :=
  if _h : fails < 3 ∧ stopAt k = false then
    match outcome k with
    | LaunchOutcome.timeoutExpired => ⟨k + 1, sleeps, ExitReason.excTimeout, false⟩
    | LaunchOutcome.otherError => ⟨k + 1, sleeps, ExitReason.excOther, false⟩
    | LaunchOutcome.ran completed code =>
      if completed = false then ⟨k + 1, sleeps, ExitReason.waitIncomplete, false⟩
      else if code = 0 then ⟨k + 1, sleeps, ExitReason.success, false⟩
      else if code = -2 then ⟨k + 1, sleeps, ExitReason.abort, false⟩
      else runPlayerLoop outcome stopAt (fails + 1) (k + 1)
        (sleeps ++ [min 1 (((fails : ℚ) + 1) * (1 / 10))])
  else ⟨k, sleeps, if fails < 3 then ExitReason.stopped else ExitReason.failsExhausted, false⟩
termination_by 3 - fails
decreasing_by omega

/-- run_player from games.py, starting with fails = 0 and no launches. -/
def run_player (outcome : Nat → LaunchOutcome) (stopAt : Nat → Bool) : RunPlayerResult :=
  runPlayerLoop outcome stopAt 0 0 []

lemma runPlayerLoop_launches_le (outcome : Nat → LaunchOutcome)
    (stopAt : Nat → Bool) :
    ∀ d fails k sleeps, 3 - fails ≤ d →
      (runPlayerLoop outcome stopAt fails k sleeps).launches ≤ k + (3 - fails) := by
  intro d
  induction d with
  | zero =>
    intro fails k sleeps hd
    rw [runPlayerLoop]
    have hc : ¬(fails < 3 ∧ stopAt k = false) := by omega
    simp [hc]
  | succ d ih =>
    intro fails k sleeps hd
    rw [runPlayerLoop]
    by_cases hc : fails < 3 ∧ stopAt k = false
    · rw [dif_pos hc]
      cases houtcome : outcome k with
      | timeoutExpired => simp; omega
      | otherError => simp; omega
      | ran completed code =>
        dsimp only
        by_cases hcmp : completed = false
        · simp [hcmp]; omega
        · by_cases h0 : code = 0
          · simp [hcmp, h0]; omega
          · by_cases h2 : code = -2
            · simp [hcmp, h0, h2]; omega
            · rw [if_neg hcmp, if_neg h0, if_neg h2]
              have := ih (fails + 1) (k + 1)
                (sleeps ++ [min 1 (((fails : ℚ) + 1) * (1 / 10))]) (by omega)
              omega
    · rw [dif_neg hc]
      simp

lemma runPlayerLoop_raised_false (outcome : Nat → LaunchOutcome)
    (stopAt : Nat → Bool) :
    ∀ d fails k sleeps, 3 - fails ≤ d →
      (runPlayerLoop outcome stopAt fails k sleeps).raised = false := by
  intro d
  induction d with
  | zero =>
    intro fails k sleeps hd
    rw [runPlayerLoop]
    have hc : ¬(fails < 3 ∧ stopAt k = false) := by omega
    simp [hc]
  | succ d ih =>
    intro fails k sleeps hd
    rw [runPlayerLoop]
    by_cases hc : fails < 3 ∧ stopAt k = false
    · rw [dif_pos hc]
      cases houtcome : outcome k with
      | timeoutExpired => simp
      | otherError => simp
      | ran completed code =>
        dsimp only
        by_cases hcmp : completed = false
        · simp [hcmp]
        · by_cases h0 : code = 0
          · simp [hcmp, h0]
          · by_cases h2 : code = -2
            · simp [hcmp, h0, h2]
            · rw [if_neg hcmp, if_neg h0, if_neg h2]
              exact ih (fails + 1) (k + 1) _ (by omega)
    · rw [dif_neg hc]

lemma runPlayerLoop_stop_observed (outcome : Nat → LaunchOutcome)
    (stopAt : Nat → Bool) (fails k : Nat) (sleeps : List ℚ)
    (hf : fails < 3) (hstop : stopAt k = true) :
    (runPlayerLoop outcome stopAt fails k sleeps).launches = k ∧
    (runPlayerLoop outcome stopAt fails k sleeps).reason = ExitReason.stopped := by
  rw [runPlayerLoop]
  have hc : ¬(fails < 3 ∧ stopAt k = false) := by simp [hstop]
  rw [dif_neg hc]
  simp [hf]

lemma runPlayerLoop_one_step (outcome : Nat → LaunchOutcome)
    (stopAt : Nat → Bool) (fails k : Nat) (sleeps : List ℚ)
    (hf : fails < 3) (hstop : stopAt k = false) :
    ((outcome k = LaunchOutcome.ran true 0 →
      (runPlayerLoop outcome stopAt fails k sleeps).launches = k + 1 ∧
      (runPlayerLoop outcome stopAt fails k sleeps).reason = ExitReason.success) ∧
    (outcome k = LaunchOutcome.ran true (-2) →
      (runPlayerLoop outcome stopAt fails k sleeps).launches = k + 1 ∧
      (runPlayerLoop outcome stopAt fails k sleeps).reason = ExitReason.abort) ∧
    (∀ c, outcome k = LaunchOutcome.ran false c →
      (runPlayerLoop outcome stopAt fails k sleeps).launches = k + 1 ∧
      (runPlayerLoop outcome stopAt fails k sleeps).reason = ExitReason.waitIncomplete)) := by
  refine ⟨?_, ?_, ?_⟩
  · intro ho
    rw [runPlayerLoop, dif_pos ⟨hf, hstop⟩, ho]
    exact ⟨rfl, rfl⟩
  · intro ho
    rw [runPlayerLoop, dif_pos ⟨hf, hstop⟩, ho]
    exact ⟨rfl, rfl⟩
  · intro c ho
    rw [runPlayerLoop, dif_pos ⟨hf, hstop⟩, ho]
    exact ⟨rfl, rfl⟩

/-- C3: run_player makes at most 3 launch attempts and never lets an
exception escape; at any reachable loop state with retry budget left, a
stop flag observed at the loop head ends the loop with no further launch,
and an attempt whose process exits 0 or -2, or whose wait does not
complete, is the last launch; and when the stop flag stays clear and
every attempt fails with a retryable exit code, the loop ends normally
after exactly 3 attempts. -/
theorem C3_run_player (outcome : Nat → LaunchOutcome) (stopAt : Nat → Bool) :
    (run_player outcome stopAt).launches ≤ 3 ∧
    (run_player outcome stopAt).raised = false ∧
    (∀ fails k sleeps, fails < 3 → stopAt k = true →
      (runPlayerLoop outcome stopAt fails k sleeps).launches = k) ∧
    (∀ fails k sleeps, fails < 3 → stopAt k = false →
      outcome k = LaunchOutcome.ran true 0 →
      (runPlayerLoop outcome stopAt fails k sleeps).launches = k + 1 ∧
      (runPlayerLoop outcome stopAt fails k sleeps).reason = ExitReason.success) ∧
    (∀ fails k sleeps, fails < 3 → stopAt k = false →
      outcome k = LaunchOutcome.ran true (-2) →
      (runPlayerLoop outcome stopAt fails k sleeps).launches = k + 1 ∧
      (runPlayerLoop outcome stopAt fails k sleeps).reason = ExitReason.abort) ∧
    (∀ fails k sleeps c, fails < 3 → stopAt k = false →
      outcome k = LaunchOutcome.ran false c →
      (runPlayerLoop outcome stopAt fails k sleeps).launches = k + 1 ∧
      (runPlayerLoop outcome stopAt fails k sleeps).reason = ExitReason.waitIncomplete) := by
  refine ⟨?_, ?_, ?_, ?_, ?_, ?_⟩
  · have := runPlayerLoop_launches_le outcome stopAt 3 0 0 [] (by omega)
    simpa [run_player] using this
  · exact runPlayerLoop_raised_false outcome stopAt 3 0 0 [] (by omega)
  · intro fails k sleeps hf hstop
    exact (runPlayerLoop_stop_observed outcome stopAt fails k sleeps hf hstop).1
  · intro fails k sleeps hf hstop ho
    exact (runPlayerLoop_one_step outcome stopAt fails k sleeps hf hstop).1 ho
  · intro fails k sleeps hf hstop ho
    exact (runPlayerLoop_one_step outcome stopAt fails k sleeps hf hstop).2.1 ho
  · intro fails k sleeps c hf hstop ho
    exact (runPlayerLoop_one_step outcome stopAt fails k sleeps hf hstop).2.2 c ho

/-- Witness for C3 at a concrete environment: the player exits 0 on the
first attempt and the stop flag is never set. -/
theorem C3_run_player_witness :
    (run_player (fun _ => LaunchOutcome.ran true 0) (fun _ => false)).launches ≤ 3 ∧
    (runPlayerLoop (fun _ => LaunchOutcome.ran true 0) (fun _ => false) 0 0 []).launches
      = 0 + 1 := by
  have h := C3_run_player (fun _ => LaunchOutcome.ran true 0) (fun _ => false)
  exact ⟨h.1, (h.2.2.2.1 0 0 [] (by decide) rfl rfl).1⟩

/-- C9: when the player binary always exits with code 5 and the stop flag
stays clear, run_player makes exactly 3 launch attempts, sleeps
min(1.0, fails * 0.1) after each failure, that is 0.1 s, 0.2 s, 0.3 s,
ends the loop with its retry budget exhausted and propagates no
exception. -/
theorem C9_always_exit_5 :
    (run_player (fun _ => LaunchOutcome.ran true 5) (fun _ => false)).launches = 3 ∧
    (run_player (fun _ => LaunchOutcome.ran true 5) (fun _ => false)).sleeps
      = [min 1 ((1 : ℚ) * (1 / 10)), min 1 ((2 : ℚ) * (1 / 10)),
         min 1 ((3 : ℚ) * (1 / 10))] ∧
    (run_player (fun _ => LaunchOutcome.ran true 5) (fun _ => false)).sleeps
      = [1 / 10, 2 / 10, 3 / 10] ∧
    (run_player (fun _ => LaunchOutcome.ran true 5) (fun _ => false)).reason
      = ExitReason.failsExhausted ∧
    (run_player (fun _ => LaunchOutcome.ran true 5) (fun _ => false)).raised = false := by
  have hstep : ∀ fails k sleeps, fails < 3 →
      runPlayerLoop (fun _ => LaunchOutcome.ran true 5) (fun _ => false) fails k sleeps
        = runPlayerLoop (fun _ => LaunchOutcome.ran true 5) (fun _ => false)
            (fails + 1) (k + 1) (sleeps ++ [min 1 (((fails : ℚ) + 1) * (1 / 10))]) := by
    intro fails k sleeps hf
    rw [runPlayerLoop, dif_pos ⟨hf, rfl⟩]
    norm_num
  have hend : ∀ k sleeps,
      runPlayerLoop (fun _ => LaunchOutcome.ran true 5) (fun _ => false) 3 k sleeps
        = ⟨k, sleeps, ExitReason.failsExhausted, false⟩ := by
    intro k sleeps
    rw [runPlayerLoop]
    norm_num
  have heval : run_player (fun _ => LaunchOutcome.ran true 5) (fun _ => false)
      = ⟨3, [min 1 ((1 : ℚ) * (1 / 10)), min 1 ((2 : ℚ) * (1 / 10)),
             min 1 ((3 : ℚ) * (1 / 10))], ExitReason.failsExhausted, false⟩ := by
    rw [run_player, hstep 0 0 [] (by omega), hstep 1 1 _ (by omega),
      hstep 2 2 _ (by omega), hend]
    norm_num
  rw [heval]
  norm_num [min_def]

/-- Signal wait_process sends to the process when the wait ends:
process.terminate() (SIGTERM), never a forced kill. -/
inductive ProcSignal where
  | noSignal
  | terminate
  | kill
deriving DecidableEq, Repr

/-- Stop-flag observation at poll tick i (ticks are the 0.1 s poll
increments of wait_process): the flag is set from tick stopFrom on, or
never when stopFrom is none. -/
def stopSetAt (stopFrom : Option Nat) (i : Nat) : Bool :=
  match stopFrom with
  | some s => decide (s ≤ i)
  | none => false

/-- Whether process.wait(timeout=0.1) at poll tick i succeeds: the process
exits on its own at tick exitsAt (never when none). -/
def exitedBy (exitsAt : Option Nat) (i : Nat) : Bool :=
  match exitsAt with
  | some e => decide (e ≤ i)
  | none => false

/-- The poll loop of wait_process (games.py): while the elapsed ticks are
below the timeout (in ticks) and the stop flag is clear, wait 0.1 s for
the process; if the process exits within the window, return completed
with no signal sent; leaving the loop otherwise, terminate the process
and return not-completed. -/
def waitProcessLoop (exitsAt stopFrom : Option Nat) (timeout i : Nat) :
    Bool × ProcSignal :=
  if _h : i < timeout ∧ stopSetAt stopFrom i = false then
    if exitedBy exitsAt i then (true, ProcSignal.noSignal)
    else waitProcessLoop exitsAt stopFrom timeout (i + 1)
  else (false, ProcSignal.terminate)
termination_by timeout - i
decreasing_by omega

/-- wait_process from games.py, polling from tick 0. -/
def wait_process (exitsAt stopFrom : Option Nat) (timeout : Nat) :
    Bool × ProcSignal :=
  waitProcessLoop exitsAt stopFrom timeout 0

/-- Closed form of the wait_process outcome: the process exits on its own
before the timeout and before the stop flag is observed. -/
def exitWithin (exitsAt stopFrom : Option Nat) (timeout i : Nat) : Bool :=
  match exitsAt with
  | none => false
  | some e =>
    decide (max e i < timeout) &&
      (match stopFrom with
       | none => true
       | some s => decide (max e i < s))

lemma waitProcessLoop_eval (exitsAt stopFrom : Option Nat) (T : Nat) :
    ∀ d i, T - i ≤ d →
      waitProcessLoop exitsAt stopFrom T i
        = if exitWithin exitsAt stopFrom T i then (true, ProcSignal.noSignal)
          else (false, ProcSignal.terminate) := by
  intro d
  induction d with
  | zero =>
    intro i hd
    rw [waitProcessLoop]
    have hc : ¬(i < T ∧ stopSetAt stopFrom i = false) := by omega
    rw [dif_neg hc]
    have hw : exitWithin exitsAt stopFrom T i = false := by
      cases exitsAt with
      | none => rfl
      | some e =>
        simp only [exitWithin, Bool.and_eq_false_iff]
        left
        simp only [decide_eq_false_iff_not]
        omega
    rw [hw, if_neg (by simp)]
  | succ d ih =>
    intro i hd
    rw [waitProcessLoop]
    by_cases hc : i < T ∧ stopSetAt stopFrom i = false
    · rw [dif_pos hc]
      by_cases he : exitedBy exitsAt i = true
      · rw [if_pos he]
        cases hx : exitsAt with
        | none => rw [hx] at he; exact absurd he (by simp [exitedBy])
        | some e =>
          rw [hx] at he
          simp only [exitedBy, decide_eq_true_eq] at he
          have hmax : max e i = i := by omega
          have hs : ∀ s, stopFrom = some s → i < s := by
            intro s hsf
            have := hc.2
            rw [hsf] at this
            simp only [stopSetAt, decide_eq_false_iff_not] at this
            omega
          have hw : exitWithin (some e) stopFrom T i = true := by
            simp only [exitWithin, hmax, Bool.and_eq_true, decide_eq_true_eq]
            refine ⟨hc.1, ?_⟩
            cases hsf : stopFrom with
            | none => rfl
            | some s => simp only [decide_eq_true_eq]; exact hs s hsf
          simp [hw]
      · rw [if_neg he]
        have hstep : exitWithin exitsAt stopFrom T (i + 1)
            = exitWithin exitsAt stopFrom T i := by
          cases hx : exitsAt with
          | none => rfl
          | some e =>
            rw [hx] at he
            simp only [exitedBy, decide_eq_true_eq] at he
            have hmax : max e (i + 1) = max e i := by omega
            simp only [exitWithin, hmax]
        rw [ih (i + 1) (by omega), hstep]
    · rw [dif_neg hc]
      have hw : exitWithin exitsAt stopFrom T i = false := by
        cases hx : exitsAt with
        | none => rfl
        | some e =>
          simp only [exitWithin, Bool.and_eq_false_iff]
          rcases Decidable.not_and_iff_or_not.mp hc with h | h
          · left
            simp only [decide_eq_false_iff_not]
            omega
          · cases hsf : stopFrom with
            | none => rw [hsf] at h; exact (h rfl).elim
            | some s =>
              right
              rw [hsf] at h
              simp only [stopSetAt, decide_eq_false_iff_not, Decidable.not_not] at h
              simp only [decide_eq_false_iff_not]
              omega
      rw [hw, if_neg (by simp)]

/-- C4: wait_process polls in 0.1 s ticks and returns completed exactly
when the process exited on its own before the timeout elapsed and before
the stop flag was observed set; in every other case it sends terminate
(never a forced kill) and returns not-completed, and on completion it
sends no signal. -/
theorem C4_wait_process (exitsAt stopFrom : Option Nat) (T : Nat) :
    ((wait_process exitsAt stopFrom T).1 = true ↔
      ∃ e, exitsAt = some e ∧ e < T ∧ ∀ s, stopFrom = some s → e < s) ∧
    ((wait_process exitsAt stopFrom T).1 = false →
      (wait_process exitsAt stopFrom T).2 = ProcSignal.terminate) ∧
    ((wait_process exitsAt stopFrom T).1 = true →
      (wait_process exitsAt stopFrom T).2 = ProcSignal.noSignal) := by
  have heval := waitProcessLoop_eval exitsAt stopFrom T T 0 (by omega)
  rw [wait_process, heval]
  by_cases hw : exitWithin exitsAt stopFrom T 0 = true
  · rw [if_pos hw]
    refine ⟨?_, ?_, ?_⟩
    · simp only [true_iff]
      cases hx : exitsAt with
      | none => rw [hx] at hw; exact absurd hw (by simp [exitWithin])
      | some e =>
        rw [hx] at hw
        simp only [exitWithin, Nat.max_zero, Bool.and_eq_true, decide_eq_true_eq] at hw
        refine ⟨e, rfl, hw.1, ?_⟩
        intro s hsf
        have := hw.2
        rw [hsf] at this
        simpa using this
    · intro hfalse
      exact absurd hfalse (by simp)
    · intro
      rfl
  · rw [if_neg hw]
    refine ⟨?_, fun _ => rfl, ?_⟩
    · simp only [Bool.false_eq_true, false_iff]
      rintro ⟨e, hx, hT, hs⟩
      apply hw
      rw [hx]
      simp only [exitWithin, Nat.max_zero, Bool.and_eq_true, decide_eq_true_eq]
      refine ⟨hT, ?_⟩
      cases hsf : stopFrom with
      | none => rfl
      | some s => simp only [decide_eq_true_eq]; exact hs s hsf
    · intro htrue
      exact absurd htrue (by simp)

/-- Witness for C4: a process that exits at tick 2 with a 5-tick timeout
and no cancellation completes. -/
theorem C4_wait_process_witness :
    (wait_process (some 2) none 5).1 = true :=
  (C4_wait_process (some 2) none 5).1.mpr ⟨2, rfl, by decide, fun s hs => by cases hs⟩

/-- The shared task queue's counters: tasks put and tasks acknowledged via
task_done.  queue.Queue.join returns exactly when acked = enqueued. -/
structure QueueState where
  enqueued : Nat
  acked : Nat
deriving DecidableEq, Repr

/-- Observable flags of one worker record: its stop event and whether its
thread has exited. -/
structure WorkerFlags where
  stopSet : Bool
  exited : Bool
deriving DecidableEq, Repr

/-- Scheduler state as Scheduler.join sees it: the queue counters and the
worker pool. -/
structure SchedulerState where
  queue : QueueState
  workers : List WorkerFlags
deriving DecidableEq, Repr

/-- One complete pass of the try block in Scheduler.join: set every
worker's stop flag, then join every worker thread. -/
def joinPass (ws : List WorkerFlags) : List WorkerFlags :=
  (ws.map (fun w => { w with stopSet := true })).map (fun w => { w with exited := true })

/-- The retry loop of Scheduler.join: attempts repeat while exceptions
interrupt them (an interrupted attempt is retried from the start, and the
flags it may already have set are re-set by the completing attempt, so
only the completing pass matters); none models a join that never returns
within the modelled attempts. -/
def schedulerJoinLoop (exc : Nat → Bool) (ws : List WorkerFlags) :
    Nat → Nat → Option (List WorkerFlags)
  | _, 0 => none
  | a, fuel + 1 =>
    if exc a then schedulerJoinLoop exc ws (a + 1) fuel else some (joinPass ws)

/-- Scheduler.join from games.py: task_queue.join() first — it returns
only when every enqueued task has been acknowledged — then the retry loop
that sets every worker's stop flag and joins every worker thread. -/
def scheduler_join (exc : Nat → Bool) (fuel : Nat) (s : SchedulerState) :
    Option SchedulerState :=
  if s.queue.acked = s.queue.enqueued then
    match schedulerJoinLoop exc s.workers 0 fuel with
    | some ws => some { s with workers := ws }
    | none => none
  else
    none

lemma schedulerJoinLoop_eq (exc : Nat → Bool) (ws : List WorkerFlags) :
    ∀ fuel a ws2, schedulerJoinLoop exc ws a fuel = some ws2 → ws2 = joinPass ws := by
  intro fuel
  induction fuel with
  | zero =>
    intro a ws2 h
    cases h
  | succ fuel ih =>
    intro a ws2 h
    rw [schedulerJoinLoop] at h
    by_cases he : exc a
    · rw [if_pos he] at h
      exact ih (a + 1) ws2 h
    · rw [if_neg he] at h
      simp only [Option.some.injEq] at h
      exact h.symm

/-- C6: Scheduler.join returns only after the queue's acknowledged count
equals its enqueued count (task_queue.join has drained) and after every
worker's stop flag has been set and every worker thread has exited. -/
theorem C6_scheduler_join (exc : Nat → Bool) (fuel : Nat)
    (s s2 : SchedulerState) (h : scheduler_join exc fuel s = some s2) :
    s2.queue.acked = s2.queue.enqueued ∧
    ∀ w ∈ s2.workers, w.stopSet = true ∧ w.exited = true := by
  unfold scheduler_join at h
  split at h
  case isTrue hq =>
    cases hl : schedulerJoinLoop exc s.workers 0 fuel with
    | none => rw [hl] at h; cases h
    | some ws =>
      rw [hl] at h
      simp only [Option.some.injEq] at h
      subst h
      refine ⟨hq, ?_⟩
      have hws := schedulerJoinLoop_eq exc s.workers fuel 0 ws hl
      subst hws
      intro w hw
      simp only [joinPass, List.map_map, List.mem_map, Function.comp] at hw
      obtain ⟨v, hv, he⟩ := hw
      subst he
      exact ⟨rfl, rfl⟩
  case isFalse => cases h

/-- Witness for C6: one worker, a queue with 5 tasks enqueued and 5
acknowledged, no exception during the shutdown attempt. -/
theorem C6_scheduler_join_witness :
    (⟨⟨5, 5⟩, [⟨true, true⟩]⟩ : SchedulerState).queue.acked
      = (⟨⟨5, 5⟩, [⟨true, true⟩]⟩ : SchedulerState).queue.enqueued ∧
    ∀ w ∈ (⟨⟨5, 5⟩, [⟨true, true⟩]⟩ : SchedulerState).workers,
      w.stopSet = true ∧ w.exited = true :=
  C6_scheduler_join (fun _ => false) 1 ⟨⟨5, 5⟩, [⟨false, false⟩]⟩
    ⟨⟨5, 5⟩, [⟨true, true⟩]⟩ (by decide)

/-- What task_queue.get(timeout=1) yields at one worker-loop iteration:
a queue.Empty timeout, a None item, or a real task. -/
inductive GetResult where
  | empty
  | noneItem
  | taskItem
deriving DecidableEq, Repr

/-- Observable events of the worker loop, indexed by iteration. -/
inductive WEvent where
  | gotTask (i : Nat)
  | gotNone (i : Nat)
  | handled (i : Nat)
  | handleFailed (i : Nat)
  | acked (i : Nat)
deriving DecidableEq, Repr

/-- Iteration index of a worker-loop event. -/
def WEvent.idx : WEvent → Nat
  | WEvent.gotTask i => i
  | WEvent.gotNone i => i
  | WEvent.handled i => i
  | WEvent.handleFailed i => i
  | WEvent.acked i => i

/-- The worker loop of run_worker (games.py): while the stop flag is not
set, poll the queue with a 1 s timeout (queue.Empty re-enters the loop);
a None item is skipped (continue); a task is handled — handle_task either
returns or raises, the exception being caught and logged — and then
acknowledged with task_done in the finally block.  ok i tells whether
handle_task returns normally at iteration i; fuel bounds the modelled
iterations; the Bool is true when the loop exited via the stop flag and
false when fuel ran out with the loop still running. -/
def runWorkerLoop (get : Nat → GetResult) (ok stopAt : Nat → Bool) :
    Nat → Nat → List WEvent × Bool
  | _, 0 => ([], false)
  | i, fuel + 1 =>
    if stopAt i then ([], true)
    else
      let rest := runWorkerLoop get ok stopAt (i + 1) fuel
      match get i with
      | GetResult.empty => rest
      | GetResult.noneItem => (WEvent.gotNone i :: rest.1, rest.2)
      | GetResult.taskItem =>
        (WEvent.gotTask i
          :: (if ok i then WEvent.handled i else WEvent.handleFailed i)
          :: WEvent.acked i :: rest.1, rest.2)

/-- run_worker from games.py, started at iteration 0. -/
def run_worker (get : Nat → GetResult) (ok stopAt : Nat → Bool)
    (fuel : Nat) : List WEvent × Bool :=
  runWorkerLoop get ok stopAt 0 fuel

lemma runWorkerLoop_exit_stop (get : Nat → GetResult) (ok stopAt : Nat → Bool) :
    ∀ fuel i, (runWorkerLoop get ok stopAt i fuel).2 = true →
      ∃ j, stopAt j = true := by
  intro fuel
  induction fuel with
  | zero =>
    intro i h
    cases h
  | succ fuel ih =>
    intro i h
    rw [runWorkerLoop] at h
    by_cases hs : stopAt i
    · exact ⟨i, hs⟩
    · rw [if_neg hs] at h
      cases hg : get i <;> rw [hg] at h <;> exact ih (i + 1) h

lemma runWorkerLoop_idx_ge (get : Nat → GetResult) (ok stopAt : Nat → Bool) :
    ∀ fuel i e, e ∈ (runWorkerLoop get ok stopAt i fuel).1 → i ≤ e.idx := by
  intro fuel
  induction fuel with
  | zero =>
    intro i e h
    cases h
  | succ fuel ih =>
    intro i e h
    rw [runWorkerLoop] at h
    by_cases hs : stopAt i
    · rw [if_pos hs] at h
      cases h
    · rw [if_neg hs] at h
      cases hg : get i <;> rw [hg] at h
      · exact Nat.le_of_succ_le (ih (i + 1) e h)
      · rcases List.mem_cons.mp h with h | h
        · subst h
          exact Nat.le_refl i
        · exact Nat.le_of_succ_le (ih (i + 1) e h)
      · rcases List.mem_cons.mp h with h | h
        · subst h
          exact Nat.le_refl i
        · rcases List.mem_cons.mp h with h | h
          · subst h
            by_cases ho : ok i <;> simp [ho, WEvent.idx]
          · rcases List.mem_cons.mp h with h | h
            · subst h
              exact Nat.le_refl i
            · exact Nat.le_of_succ_le (ih (i + 1) e h)

lemma runWorkerLoop_not_mem_self (get : Nat → GetResult) (ok stopAt : Nat → Bool)
    (fuel i : Nat) (e : WEvent) (he : e.idx = i) :
    e ∉ (runWorkerLoop get ok stopAt (i + 1) fuel).1 := by
  intro h
  have := runWorkerLoop_idx_ge get ok stopAt fuel (i + 1) e h
  omega

lemma runWorkerLoop_counts (get : Nat → GetResult) (ok stopAt : Nat → Bool) :
    ∀ fuel i j,
      ((runWorkerLoop get ok stopAt i fuel).1.count (WEvent.acked j)
        = (runWorkerLoop get ok stopAt i fuel).1.count (WEvent.gotTask j)) ∧
      (runWorkerLoop get ok stopAt i fuel).1.count (WEvent.gotTask j) ≤ 1 := by
  intro fuel
  induction fuel with
  | zero =>
    intro i j
    simp [runWorkerLoop]
  | succ fuel ih =>
    intro i j
    rw [runWorkerLoop]
    by_cases hs : stopAt i
    · rw [if_pos hs]
      simp
    · rw [if_neg hs]
      cases hg : get i
      · exact ih (i + 1) j
      · dsimp only
        have ihj := ih (i + 1) j
        refine ⟨?_, ?_⟩
        · simpa [List.count_cons] using ihj.1
        · simpa [List.count_cons] using ihj.2
      · dsimp only
        by_cases hj : j = i
        · subst hj
          have hna : WEvent.acked j ∉ (runWorkerLoop get ok stopAt (j + 1) fuel).1 :=
            runWorkerLoop_not_mem_self get ok stopAt fuel j _ rfl
          have hng : WEvent.gotTask j ∉ (runWorkerLoop get ok stopAt (j + 1) fuel).1 :=
            runWorkerLoop_not_mem_self get ok stopAt fuel j _ rfl
          have hza := List.count_eq_zero.mpr hna
          have hzg := List.count_eq_zero.mpr hng
          by_cases ho : ok j <;> simp [ho, List.count_cons, hza, hzg]
        · have ihj := ih (i + 1) j
          have hij : i ≠ j := Ne.symm hj
          refine ⟨?_, ?_⟩
          · by_cases ho : ok i <;>
              simpa [ho, List.count_cons, hij] using ihj.1
          · by_cases ho : ok i <;>
              simpa [ho, List.count_cons, hij] using ihj.2

lemma runWorkerLoop_failed_acked (get : Nat → GetResult) (ok stopAt : Nat → Bool) :
    ∀ fuel i j, WEvent.handleFailed j ∈ (runWorkerLoop get ok stopAt i fuel).1 →
      WEvent.acked j ∈ (runWorkerLoop get ok stopAt i fuel).1 := by
  intro fuel
  induction fuel with
  | zero =>
    intro i j h
    cases h
  | succ fuel ih =>
    intro i j h
    rw [runWorkerLoop] at h ⊢
    by_cases hs : stopAt i
    · rw [if_pos hs] at h
      cases h
    · rw [if_neg hs] at h ⊢
      cases hg : get i <;> rw [hg] at h <;> dsimp only at h ⊢
      · exact ih (i + 1) j h
      · rcases List.mem_cons.mp h with h | h
        · cases h
        · exact List.mem_cons_of_mem _ (ih (i + 1) j h)
      · rcases List.mem_cons.mp h with h | h
        · cases h
        · rcases List.mem_cons.mp h with h | h
          · by_cases ho : ok i
            · rw [if_pos ho] at h
              cases h
            · rw [if_neg ho] at h
              cases h
              exact List.mem_cons_of_mem _
                (List.mem_cons_of_mem _ (List.mem_cons_self _ _))
          · rcases List.mem_cons.mp h with h | h
            · cases h
            · exact List.mem_cons_of_mem _ (List.mem_cons_of_mem _
                (List.mem_cons_of_mem _ (ih (i + 1) j h)))

/-- C7: the worker loop exits with true only when the stop flag was
observed set at a loop head (an exception inside task handling never ends
the loop); every task taken from the queue is acknowledged with task_done
exactly once, whether handling succeeded or raised; and a task whose
handling raised is still acknowledged. -/
theorem C7_run_worker (get : Nat → GetResult) (ok stopAt : Nat → Bool)
    (fuel : Nat) :
    ((run_worker get ok stopAt fuel).2 = true → ∃ j, stopAt j = true) ∧
    (∀ j, (run_worker get ok stopAt fuel).1.count (WEvent.acked j)
        = (run_worker get ok stopAt fuel).1.count (WEvent.gotTask j)) ∧
    (∀ j, (run_worker get ok stopAt fuel).1.count (WEvent.gotTask j) ≤ 1) ∧
    (∀ j, WEvent.handleFailed j ∈ (run_worker get ok stopAt fuel).1 →
      WEvent.acked j ∈ (run_worker get ok stopAt fuel).1) := by
  refine ⟨?_, ?_, ?_, ?_⟩
  · exact runWorkerLoop_exit_stop get ok stopAt fuel 0
  · intro j
    exact (runWorkerLoop_counts get ok stopAt fuel 0 j).1
  · intro j
    exact (runWorkerLoop_counts get ok stopAt fuel 0 j).2
  · intro j
    exact runWorkerLoop_failed_acked get ok stopAt fuel 0 j

/-- Witness for C7 at a concrete environment: a queue always yielding a
task, handling that always raises, a stop flag set from iteration 1, and
2 iterations of fuel — the iteration-0 task is acknowledged exactly as
often as it was taken. -/
theorem C7_run_worker_witness :
    (run_worker (fun _ => GetResult.taskItem) (fun _ => false)
        (fun i => decide (1 ≤ i)) 2).1.count (WEvent.acked 0)
      = (run_worker (fun _ => GetResult.taskItem) (fun _ => false)
        (fun i => decide (1 ≤ i)) 2).1.count (WEvent.gotTask 0) :=
  (C7_run_worker (fun _ => GetResult.taskItem) (fun _ => false)
    (fun i => decide (1 ≤ i)) 2).2.1 0

/-- The parameter list of runner.run_game (runner.py); every parameter is
required (none has a default). -/
def run_game_params : List String :=
  ["player_ports", "player_names", "game_type", "bin_path", "verbose",
   "output_path", "seed", "visual"]

/-- The keyword arguments of the run_game call inside runner.run
(runner.py): visual is not among them. -/
def runGameCallKwargsInRun : List String :=
  ["player_ports", "player_names", "game_type", "bin_path", "verbose",
   "output_path", "seed"]

/-- Python keyword-call binding: the call enters the callee only when
every required parameter is supplied and no unexpected keyword is given;
otherwise a TypeError is raised at the call site, before any of the
callee's body (including its Popen) runs. -/
def callBindsOk (params kwargs : List String) : Bool :=
  params.all (fun p => kwargs.contains p) && kwargs.all (fun a => params.contains a)

/-- The Python errors this model distinguishes. -/
inductive PyError where
  | typeError
deriving DecidableEq, Repr

/-- Result of runner.run: how many game processes were launched, and the
exception that escaped, if any. -/
structure RunnerRunResult where
  launched : Nat
  error : Option PyError
deriving DecidableEq, Repr

/-- The loop of runner.run (runner.py): for each of max_runs iterations,
break if should_stop is present and set, then call run_game; the
iteration count equals the number of games launched so far.  The seed,
path and wait bookkeeping of the loop body does not affect call
binding and is omitted. -/
def runnerRunLoop (shouldStop : Option (Nat → Bool)) (launched : Nat) :
    Nat → RunnerRunResult
  | 0 => ⟨launched, none⟩
  | remaining + 1 =>
    if (match shouldStop with | some f => f launched | none => false) then
      ⟨launched, none⟩
    else if callBindsOk run_game_params runGameCallKwargsInRun then
      runnerRunLoop shouldStop (launched + 1) remaining
    else
      ⟨launched, some PyError.typeError⟩

/-- runner.run from runner.py, restricted to its loop (the session-path
setup before the loop has no bearing on the claim). -/
def runnerRun (max_runs : Nat) (shouldStop : Option (Nat → Bool)) :
    RunnerRunResult :=
  runnerRunLoop shouldStop 0 max_runs

/-- C10: run_game requires visual but the call in runner.run does not
pass it, so with max_runs at least 1 and should_stop absent or unset at
the first check, runner.run raises TypeError on its first iteration and
launches no game process. -/
theorem C10_runner_run_type_error (max_runs : Nat)
    (shouldStop : Option (Nat → Bool)) (hmr : 1 ≤ max_runs)
    (hss : ∀ f, shouldStop = some f → f 0 = false) :
    "visual" ∈ run_game_params ∧
    "visual" ∉ runGameCallKwargsInRun ∧
    runnerRun max_runs shouldStop = ⟨0, some PyError.typeError⟩ := by
  refine ⟨by decide, by decide, ?_⟩
  obtain ⟨r, rfl⟩ : ∃ r, max_runs = r + 1 := ⟨max_runs - 1, by omega⟩
  have h2 : callBindsOk run_game_params runGameCallKwargsInRun = false := by decide
  cases shouldStop with
  | none =>
    rw [runnerRun, runnerRunLoop.eq_def]
    dsimp only
    simp [h2]
  | some f =>
    have hf : f 0 = false := hss f rfl
    rw [runnerRun, runnerRunLoop.eq_def]
    dsimp only
    simp [hf, h2]

/-- Witness for C10: max_runs 1, no should_stop event. -/
theorem C10_runner_run_type_error_witness :
    "visual" ∈ run_game_params ∧
    "visual" ∉ runGameCallKwargsInRun ∧
    runnerRun 1 none = ⟨0, some PyError.typeError⟩ :=
  C10_runner_run_type_error 1 none (by decide) (fun f hf => by cases hf)
